import Mathlib

/-!
Shallow embedding of the survivalkit lifecycle state machine
(`sk_lifecycle.c` together with `include/sk_lifecycle.h`).

The C code keeps, per lifecycle, a current state (an `enum sk_state`
value), an array `epochs[SK_STATE_COUNT]` of timestamps, and a singly
linked list of listeners.  Writers are serialized by a lock and all the
interesting behaviour is the sequential behaviour of one writer at a
time, so the embedding is purely functional: every operation takes the
lifecycle value and returns the updated lifecycle (or an error code),
and a transition additionally returns the list of listener invocations
it performed, in the order the C loop performs them.  `time_t` is
modelled as `Int`; the result of `time(NULL)` is passed in as an
explicit argument (`-1` models a failing clock, as in the C code).
-/

namespace Survivalkit

/-- Enumerator value of `SK_STATE_NEW` in `enum sk_state`. -/
def SK_STATE_NEW : Nat := 0

/-- Enumerator value of `SK_STATE_STARTING` in `enum sk_state`. -/
def SK_STATE_STARTING : Nat := 1

/-- Enumerator value of `SK_STATE_RUNNING` in `enum sk_state`. -/
def SK_STATE_RUNNING : Nat := 2

/-- Enumerator value of `SK_STATE_STOPPING` in `enum sk_state`. -/
def SK_STATE_STOPPING : Nat := 3

/-- Enumerator value of `SK_STATE_TERMINATED` in `enum sk_state`. -/
def SK_STATE_TERMINATED : Nat := 4

/-- Enumerator value of `SK_STATE_FAILED` in `enum sk_state`. -/
def SK_STATE_FAILED : Nat := 5

/-- Enumerator value of the sentinel `SK_STATE_COUNT` in `enum sk_state`. -/
def SK_STATE_COUNT : Nat := 6

/-- Error codes set by the lifecycle operations through `sk_error_msg_code`. -/
inductive sk_error_code where
  | SK_LIFECYCLE_EINVAL
  | SK_LIFECYCLE_EFAULT
  | SK_LIFECYCLE_ENOMEM
deriving DecidableEq

/-- A registered listener node (`sk_lifecycle_listener_t`): a copied name,
an opaque callback (identified by a number, since the embedding does not
execute callbacks) and the caller supplied opaque context. -/
structure sk_lifecycle_listener where
  name : String
  callback : Nat
  ctx : Nat
deriving DecidableEq

/-- One observer invocation performed during a transition: which callback
was called, with which context argument, and the `(new_state, epoch)`
pair it was passed (`listener->callback(listener->ctx, new_state, epoch)`). -/
structure Invocation where
  callback : Nat
  ctx : Nat
  state : Nat
  epoch : Int
deriving DecidableEq

/-- The lifecycle aggregate `sk_lifecycle_t`: the current state, the
`epochs[SK_STATE_COUNT]` array, and the listener list in list order
(head of the C `SLIST` first).  The lock only serializes writers and
has no sequential content, so it is not represented. -/
structure sk_lifecycle where
  state : Nat
  epochs : List Int
  listeners : List sk_lifecycle_listener
deriving DecidableEq

/-- `sk_lifecycle_get`: atomic load of the current state. -/
def sk_lifecycle_get (lfc : sk_lifecycle) : Nat :=
  lfc.state

/-- `sk_lifecycle_get_epoch`: returns `0` when the requested state is
ordinally greater than the current state, otherwise loads `epochs[state]`. -/
def sk_lifecycle_get_epoch (lfc : sk_lifecycle) (state : Nat) : Int :=
  if state > sk_lifecycle_get lfc then 0
  else lfc.epochs.getD state 0

/-- `valid_transition` from `sk_lifecycle.c`: the switch on the target
state; any target not listed (including `SK_STATE_NEW` and values outside
the enumeration) falls to the default branch and is denied. -/
def valid_transition (old new : Nat) : Bool :=
  if new = SK_STATE_STARTING then old == SK_STATE_NEW
  else if new = SK_STATE_RUNNING then old == SK_STATE_STARTING
  else if new = SK_STATE_STOPPING then old == SK_STATE_RUNNING
  else if new = SK_STATE_TERMINATED then old == SK_STATE_STOPPING
  else if new = SK_STATE_FAILED then old != SK_STATE_FAILED
  else false

/-- `sk_lifecycle_init`: zero the aggregate (`memset`), then record the
current time in `epochs[SK_STATE_NEW]`; fails with `SK_LIFECYCLE_EFAULT`
exactly when `time(2)` returned `-1`.  The clock reading is the `now`
argument. -/
def sk_lifecycle_init (now : Int) : Except sk_error_code sk_lifecycle :=
  if now = -1 then .error .SK_LIFECYCLE_EFAULT
  else .ok { state := SK_STATE_NEW,
             epochs := (List.replicate SK_STATE_COUNT (0 : Int)).set SK_STATE_NEW now,
             listeners := [] }

/-- `sk_lifecycle_set_at_epoch`: reject non-positive epochs, then check the
transition policy against the current state; on acceptance store the new
state and its epoch and invoke every listener, front to back, with
`(ctx, new_state, epoch)`.  The returned list is the sequence of listener
invocations performed before the call returns `true`. -/
def sk_lifecycle_set_at_epoch (lfc : sk_lifecycle) (new_state : Nat) (epoch : Int) :
    Except sk_error_code (sk_lifecycle × List Invocation) :=
  if epoch ≤ 0 then .error .SK_LIFECYCLE_EINVAL
  else
    let current_state := sk_lifecycle_get lfc
    if ! valid_transition current_state new_state then .error .SK_LIFECYCLE_EINVAL
    else
      .ok ({ lfc with state := new_state, epochs := lfc.epochs.set new_state epoch },
           lfc.listeners.map (fun l =>
             { callback := l.callback, ctx := l.ctx, state := new_state, epoch := epoch }))

/-- `sk_lifecycle_set`: read the clock (`now` argument; `-1` models a
failing `time(2)` and yields `SK_LIFECYCLE_EFAULT`), then delegate to
`sk_lifecycle_set_at_epoch` with the clock reading as the epoch. -/
def sk_lifecycle_set (lfc : sk_lifecycle) (new_state : Nat) (now : Int) :
    Except sk_error_code (sk_lifecycle × List Invocation) :=
  if now = -1 then .error .SK_LIFECYCLE_EFAULT
  else sk_lifecycle_set_at_epoch lfc new_state now

/-- `sk_lifecycle_register_listener` (success path): the new node is
inserted at the head of the listener list (`CK_SLIST_INSERT_HEAD`). -/
def sk_lifecycle_register_listener (lfc : sk_lifecycle) (l : sk_lifecycle_listener) :
    sk_lifecycle :=
  { lfc with listeners := l :: lfc.listeners }

/-- `sk_lifecycle_unregister_listener`: remove the given node from the
listener list (`CK_SLIST_REMOVE`). -/
def sk_lifecycle_unregister_listener (lfc : sk_lifecycle) (l : sk_lifecycle_listener) :
    sk_lifecycle :=
  { lfc with listeners := lfc.listeners.erase l }

/-- Register a whole list of listeners in order: the first element of `ls`
is registered first. -/
def registerAll (lfc : sk_lifecycle) (ls : List sk_lifecycle_listener) : sk_lifecycle :=
  ls.foldl sk_lifecycle_register_listener lfc

/-- The invocations performed by a transition attempt: none when the
attempt failed. -/
def invocations (r : Except sk_error_code (sk_lifecycle × List Invocation)) :
    List Invocation :=
  match r with
  | .ok (_, tr) => tr
  | .error _ => []

/-- One client-visible operation on a lifecycle. -/
inductive Op where
  | set_at_epoch (new_state : Nat) (epoch : Int)
  | set (new_state : Nat) (now : Int)
  | register_listener (l : sk_lifecycle_listener)
  | unregister_listener (l : sk_lifecycle_listener)

/-- Execute one operation; a failed transition leaves the lifecycle
unchanged, exactly as the C code returns `false` without mutating it. -/
def step (lfc : sk_lifecycle) : Op → sk_lifecycle
  | .set_at_epoch s e =>
    match sk_lifecycle_set_at_epoch lfc s e with
    | .ok (lfc2, _) => lfc2
    | .error _ => lfc
  | .set s now =>
    match sk_lifecycle_set lfc s now with
    | .ok (lfc2, _) => lfc2
    | .error _ => lfc
  | .register_listener l => sk_lifecycle_register_listener lfc l
  | .unregister_listener l => sk_lifecycle_unregister_listener lfc l

/-- Execute a sequence of operations. -/
def run (lfc : sk_lifecycle) (ops : List Op) : sk_lifecycle :=
  ops.foldl step lfc

/-- The state an operation transitioned into, when the operation is an
accepted transition; `none` otherwise. -/
def entered (lfc : sk_lifecycle) : Op → Option Nat
  | .set_at_epoch s e => if (sk_lifecycle_set_at_epoch lfc s e).isOk then some s else none
  | .set s now => if (sk_lifecycle_set lfc s now).isOk then some s else none
  | .register_listener _ => none
  | .unregister_listener _ => none

/-- The states entered by the accepted transitions of an operation
sequence, in order. -/
def visited (lfc : sk_lifecycle) : List Op → List Nat
  | [] => []
  | op :: rest => (entered lfc op).toList ++ visited (step lfc op) rest

/-- The trace of current states along an operation sequence, starting
with the initial state. -/
def statesAlong (lfc : sk_lifecycle) : List Op → List Nat
  | [] => [sk_lifecycle_get lfc]
  | op :: rest => sk_lifecycle_get lfc :: statesAlong (step lfc op) rest

/-- Modelled from the spec, section 4.1 (not from the source): the
transition table as written in the spec, used only to compare the source
policy `valid_transition` against the spec wording.  Each row contributes
one disjunct; every target not listed is denied (default-deny). -/
def allowed_by_spec_table (old new : Nat) : Bool :=
  (new == SK_STATE_STARTING && old == SK_STATE_NEW) ||
  (new == SK_STATE_RUNNING && old == SK_STATE_STARTING) ||
  (new == SK_STATE_STOPPING && old == SK_STATE_RUNNING) ||
  (new == SK_STATE_TERMINATED && old == SK_STATE_STOPPING) ||
  (new == SK_STATE_FAILED && old != SK_STATE_FAILED)

/-- Reading back the slot just written in an in-range position. -/
theorem getD_set_self (l : List Int) (i : Nat) (v : Int) (h : i < l.length) :
    (l.set i v).getD i 0 = v := by
  simp [List.getD, List.getElem?_set_self, h]

/-- Writing one slot leaves every other slot unchanged. -/
theorem getD_set_ne (l : List Int) (i j : Nat) (v : Int) (h : i ≠ j) :
    (l.set i v).getD j 0 = l.getD j 0 := by
  simp [List.getD, List.getElem?_set_ne h]

/-- Characterization of the transition policy as a disjunction of its
five accepting cases. -/
theorem valid_transition_iff (old new : Nat) :
    valid_transition old new = true ↔
      ((new = SK_STATE_STARTING ∧ old = SK_STATE_NEW) ∨
       (new = SK_STATE_RUNNING ∧ old = SK_STATE_STARTING) ∨
       (new = SK_STATE_STOPPING ∧ old = SK_STATE_RUNNING) ∨
       (new = SK_STATE_TERMINATED ∧ old = SK_STATE_STOPPING) ∨
       (new = SK_STATE_FAILED ∧ old ≠ SK_STATE_FAILED)) := by
  unfold valid_transition
  split_ifs with h1 h2 h3 h4 h5 <;>
    simp_all [SK_STATE_NEW, SK_STATE_STARTING, SK_STATE_RUNNING, SK_STATE_STOPPING,
      SK_STATE_TERMINATED, SK_STATE_FAILED]

/-- Every accepted transition strictly increases the state ordinal, as
long as the source state is a real enumerator. -/
theorem valid_transition_lt (old new : Nat) (hold : old < SK_STATE_COUNT)
    (h : valid_transition old new = true) : old < new := by
  rcases (valid_transition_iff old new).mp h with ⟨h1, h2⟩ | ⟨h1, h2⟩ | ⟨h1, h2⟩ | ⟨h1, h2⟩ | ⟨h1, h2⟩ <;>
    simp_all [SK_STATE_NEW, SK_STATE_STARTING, SK_STATE_RUNNING, SK_STATE_STOPPING,
      SK_STATE_TERMINATED, SK_STATE_FAILED, SK_STATE_COUNT] <;> omega

/-- Every accepted target state is a real, non-`NEW` enumerator. -/
theorem valid_transition_target (old new : Nat) (h : valid_transition old new = true) :
    0 < new ∧ new < SK_STATE_COUNT := by
  rcases (valid_transition_iff old new).mp h with ⟨h1, h2⟩ | ⟨h1, h2⟩ | ⟨h1, h2⟩ | ⟨h1, h2⟩ | ⟨h1, h2⟩ <;>
    simp_all [SK_STATE_STARTING, SK_STATE_RUNNING, SK_STATE_STOPPING,
      SK_STATE_TERMINATED, SK_STATE_FAILED, SK_STATE_COUNT]

/-- No transition out of `FAILED` is allowed. -/
theorem valid_transition_from_failed (new : Nat) :
    valid_transition SK_STATE_FAILED new = false := by
  unfold valid_transition
  split_ifs <;>
    simp_all [SK_STATE_NEW, SK_STATE_STARTING, SK_STATE_RUNNING, SK_STATE_STOPPING,
      SK_STATE_TERMINATED, SK_STATE_FAILED]

/-- Inversion of a successful initialization. -/
theorem init_ok (now : Int) (lfc : sk_lifecycle)
    (h : sk_lifecycle_init now = .ok lfc) :
    now ≠ -1 ∧ lfc.state = SK_STATE_NEW ∧
    lfc.epochs = (List.replicate SK_STATE_COUNT (0 : Int)).set SK_STATE_NEW now ∧
    lfc.listeners = [] := by
  unfold sk_lifecycle_init at h
  split_ifs at h with h1
  cases h
  exact ⟨h1, rfl, rfl, rfl⟩

/-- Inversion of an accepted transition. -/
theorem set_at_epoch_ok (lfc : sk_lifecycle) (s : Nat) (e : Int)
    (lfc2 : sk_lifecycle) (tr : List Invocation)
    (h : sk_lifecycle_set_at_epoch lfc s e = .ok (lfc2, tr)) :
    0 < e ∧ valid_transition lfc.state s = true ∧
    lfc2.state = s ∧ lfc2.epochs = lfc.epochs.set s e ∧
    lfc2.listeners = lfc.listeners ∧
    tr = lfc.listeners.map (fun l =>
      { callback := l.callback, ctx := l.ctx, state := s, epoch := e }) := by
  unfold sk_lifecycle_set_at_epoch sk_lifecycle_get at h
  by_cases h1 : e ≤ 0
  · simp [h1] at h
  · by_cases h2 : valid_transition lfc.state s = true
    · simp [h1, h2] at h
      obtain ⟨hl, ht⟩ := h
      subst hl
      subst ht
      exact ⟨by omega, h2, rfl, rfl, rfl, rfl⟩
    · simp [h1, h2] at h

/-- A rejected transition reports `SK_LIFECYCLE_EINVAL`. -/
theorem set_at_epoch_error (lfc : sk_lifecycle) (s : Nat) (e : Int)
    (h : e ≤ 0 ∨ valid_transition lfc.state s = false) :
    sk_lifecycle_set_at_epoch lfc s e = .error .SK_LIFECYCLE_EINVAL := by
  unfold sk_lifecycle_set_at_epoch sk_lifecycle_get
  rcases h with h | h <;> split_ifs <;> simp_all

/-- A transition with a positive epoch that the policy accepts stores the
new state and epoch and reports the listener invocations. -/
theorem set_at_epoch_accepts (lfc : sk_lifecycle) (s : Nat) (e : Int)
    (he : 0 < e) (hv : valid_transition lfc.state s = true) :
    sk_lifecycle_set_at_epoch lfc s e =
      .ok ({ lfc with state := s, epochs := lfc.epochs.set s e },
        lfc.listeners.map (fun l =>
          { callback := l.callback, ctx := l.ctx, state := s, epoch := e })) := by
  unfold sk_lifecycle_set_at_epoch sk_lifecycle_get
  rw [if_neg (by omega)]
  simp [hv]

/-- A successful clocked transition is a successful explicit transition. -/
theorem set_ok (lfc : sk_lifecycle) (s : Nat) (now : Int)
    (lfc2 : sk_lifecycle) (tr : List Invocation)
    (h : sk_lifecycle_set lfc s now = .ok (lfc2, tr)) :
    sk_lifecycle_set_at_epoch lfc s now = .ok (lfc2, tr) := by
  unfold sk_lifecycle_set at h
  split_ifs at h with h1
  exact h

/-- Every step either leaves the state untouched or moves it along an
edge accepted by the transition policy. -/
theorem step_state (lfc : sk_lifecycle) (op : Op) :
    (step lfc op).state = lfc.state ∨
      valid_transition lfc.state (step lfc op).state = true := by
  cases op with
  | set_at_epoch s e =>
    cases hres : sk_lifecycle_set_at_epoch lfc s e with
    | ok p =>
      obtain ⟨lfc2, tr⟩ := p
      have hinv := set_at_epoch_ok lfc s e lfc2 tr hres
      right
      simp only [step, hres]
      rw [hinv.2.2.1]
      exact hinv.2.1
    | error c =>
      left
      simp [step, hres]
  | set s now =>
    cases hres : sk_lifecycle_set lfc s now with
    | ok p =>
      obtain ⟨lfc2, tr⟩ := p
      have hinv := set_at_epoch_ok lfc s now lfc2 tr (set_ok lfc s now lfc2 tr hres)
      right
      simp only [step, hres]
      rw [hinv.2.2.1]
      exact hinv.2.1
    | error c =>
      left
      simp [step, hres]
  | register_listener l => left; rfl
  | unregister_listener l => left; rfl

/-- Stepping preserves the bound `state < SK_STATE_COUNT`. -/
theorem step_state_lt (lfc : sk_lifecycle) (op : Op) (h : lfc.state < SK_STATE_COUNT) :
    (step lfc op).state < SK_STATE_COUNT := by
  rcases step_state lfc op with he | hv
  · rw [he]; exact h
  · exact (valid_transition_target lfc.state (step lfc op).state hv).2

/-- The trace of states always begins with the current state. -/
theorem statesAlong_head (lfc : sk_lifecycle) (ops : List Op) :
    (statesAlong lfc ops).head? = some (sk_lifecycle_get lfc) := by
  cases ops <;> rfl

/-- Along any operation sequence started below the sentinel, consecutive
states are either equal or connected by an accepted transition, and never
decrease. -/
theorem chain_statesAlong (ops : List Op) :
    ∀ lfc : sk_lifecycle, sk_lifecycle_get lfc < SK_STATE_COUNT →
      List.Chain' (fun a b => (a = b ∨ valid_transition a b = true) ∧ a ≤ b)
        (statesAlong lfc ops) := by
  induction ops with
  | nil =>
    intro lfc _
    simp [statesAlong]
  | cons op rest ih =>
    intro lfc h
    rw [statesAlong]
    refine List.chain'_cons'.mpr ⟨?_, ih (step lfc op) (step_state_lt lfc op h)⟩
    intro y hy
    rw [statesAlong_head] at hy
    simp only [Option.mem_def, Option.some.injEq] at hy
    subst hy
    simp only [sk_lifecycle_get] at h
    rcases step_state lfc op with he | hv
    · refine ⟨Or.inl ?_, ?_⟩ <;> simp only [sk_lifecycle_get] <;> omega
    · have hlt := valid_transition_lt _ _ h hv
      refine ⟨Or.inr hv, ?_⟩
      simp only [sk_lifecycle_get]
      omega

/-- C1: the transition policy is the pure total function given by the
spec table: a transition is allowed iff (to = STARTING and from = NEW),
or (to = RUNNING and from = STARTING), or (to = STOPPING and
from = RUNNING), or (to = TERMINATED and from = STOPPING), or
(to = FAILED and from is not FAILED); every other target, including NEW
and any value outside the enumeration, is denied. -/
theorem C1_policy_is_spec_table (old new : Nat) :
    valid_transition old new = allowed_by_spec_table old new ∧
      (valid_transition old new = true ↔
        ((new = SK_STATE_STARTING ∧ old = SK_STATE_NEW) ∨
         (new = SK_STATE_RUNNING ∧ old = SK_STATE_STARTING) ∨
         (new = SK_STATE_STOPPING ∧ old = SK_STATE_RUNNING) ∨
         (new = SK_STATE_TERMINATED ∧ old = SK_STATE_STOPPING) ∨
         (new = SK_STATE_FAILED ∧ old ≠ SK_STATE_FAILED))) := by
  constructor
  · rw [Bool.eq_iff_iff, valid_transition_iff]
    unfold allowed_by_spec_table
    simp [SK_STATE_NEW, SK_STATE_STARTING, SK_STATE_RUNNING, SK_STATE_STOPPING,
      SK_STATE_TERMINATED, SK_STATE_FAILED]
    tauto
  · exact valid_transition_iff old new

/-- C2: starting from a successfully initialized lifecycle, along every
sequence of operations the current state only changes via transitions
permitted by the policy, and its declaration-order ordinal never
decreases across any accepted call. -/
theorem C2_state_never_regresses (now : Int) (lfc0 : sk_lifecycle)
    (hinit : sk_lifecycle_init now = .ok lfc0) (ops : List Op) :
    List.Chain' (fun a b => (a = b ∨ valid_transition a b = true) ∧ a ≤ b)
      (statesAlong lfc0 ops) := by
  have h := (init_ok now lfc0 hinit).2.1
  refine chain_statesAlong ops lfc0 ?_
  rw [sk_lifecycle_get, h]
  norm_num [SK_STATE_NEW, SK_STATE_COUNT]

/-- Concrete instantiation of `C2_state_never_regresses`: initialize at
time 50, then advance to STARTING at epoch 7 and RUNNING at epoch 8. -/
theorem C2_state_never_regresses_witness :
    List.Chain' (fun a b => (a = b ∨ valid_transition a b = true) ∧ a ≤ b)
      (statesAlong { state := 0, epochs := [50, 0, 0, 0, 0, 0], listeners := [] }
        [Op.set_at_epoch 1 7, Op.set_at_epoch 2 8]) :=
  C2_state_never_regresses 50
    { state := 0, epochs := [50, 0, 0, 0, 0, 0], listeners := [] }
    rfl [Op.set_at_epoch 1 7, Op.set_at_epoch 2 8]

/-- C3: `sk_lifecycle_get_epoch` returns the zero timestamp when the
requested state is ordinally greater than the current state and otherwise
returns `epochs[state]`, never failing; and (the section 9 quirk) a
machine that went NEW, STARTING, FAILED passes the ordinal test for
RUNNING (RUNNING is below FAILED) and answers with the zero, unset epoch
rather than a distinct never-reached indication. -/
theorem C3_get_epoch_ordinal (lfc : sk_lifecycle) (s : Nat) :
    (s > sk_lifecycle_get lfc → sk_lifecycle_get_epoch lfc s = 0) ∧
    (s ≤ sk_lifecycle_get lfc → sk_lifecycle_get_epoch lfc s = lfc.epochs.getD s 0) ∧
    (∃ lfc0 lfc1 lfc2 t1 t2,
      sk_lifecycle_init 10 = .ok lfc0 ∧
      sk_lifecycle_set_at_epoch lfc0 SK_STATE_STARTING 11 = .ok (lfc1, t1) ∧
      sk_lifecycle_set_at_epoch lfc1 SK_STATE_FAILED 12 = .ok (lfc2, t2) ∧
      sk_lifecycle_get lfc2 = SK_STATE_FAILED ∧
      SK_STATE_RUNNING ≤ sk_lifecycle_get lfc2 ∧
      sk_lifecycle_get_epoch lfc2 SK_STATE_RUNNING = 0) := by
  refine ⟨?_, ?_, ?_⟩
  · intro h
    rw [sk_lifecycle_get_epoch, if_pos h]
  · intro h
    rw [sk_lifecycle_get_epoch, if_neg (by omega)]
  · exact ⟨⟨0, [10, 0, 0, 0, 0, 0], []⟩, ⟨1, [10, 11, 0, 0, 0, 0], []⟩,
      ⟨5, [10, 11, 0, 0, 0, 12], []⟩, [], [], rfl, rfl, rfl, rfl, by decide, rfl⟩

/-- Concrete instantiation of `C3_get_epoch_ordinal`: a machine still in
NEW answers zero for the not yet reached state STOPPING. -/
theorem C3_get_epoch_ordinal_witness :
    sk_lifecycle_get_epoch ⟨0, [10, 0, 0, 0, 0, 0], []⟩ 3 = 0 :=
  (C3_get_epoch_ordinal ⟨0, [10, 0, 0, 0, 0, 0], []⟩ 3).1 (by decide)

/-- C5: a non-positive epoch makes `sk_lifecycle_set_at_epoch` fail with
`SK_LIFECYCLE_EINVAL` and leave the lifecycle unchanged. -/
theorem C5_nonpositive_epoch_rejected (lfc : sk_lifecycle) (s : Nat) (e : Int)
    (h : e ≤ 0) :
    sk_lifecycle_set_at_epoch lfc s e = .error .SK_LIFECYCLE_EINVAL ∧
    step lfc (.set_at_epoch s e) = lfc := by
  have herr := set_at_epoch_error lfc s e (Or.inl h)
  exact ⟨herr, by simp [step, herr]⟩

/-- Concrete instantiation of `C5_nonpositive_epoch_rejected` at epoch 0
and at a negative epoch. -/
theorem C5_nonpositive_epoch_rejected_witness :
    (sk_lifecycle_set_at_epoch ⟨0, [10, 0, 0, 0, 0, 0], []⟩ 1 0 =
      .error .SK_LIFECYCLE_EINVAL ∧
     step ⟨0, [10, 0, 0, 0, 0, 0], []⟩ (.set_at_epoch 1 0) =
      ⟨0, [10, 0, 0, 0, 0, 0], []⟩) ∧
    sk_lifecycle_set_at_epoch ⟨0, [10, 0, 0, 0, 0, 0], []⟩ 1 (-4) =
      .error .SK_LIFECYCLE_EINVAL :=
  ⟨C5_nonpositive_epoch_rejected ⟨0, [10, 0, 0, 0, 0, 0], []⟩ 1 0 (by decide),
   (C5_nonpositive_epoch_rejected ⟨0, [10, 0, 0, 0, 0, 0], []⟩ 1 (-4) (by decide)).1⟩

/-- C6: a transition denied by the policy fails with
`SK_LIFECYCLE_EINVAL`, performs no observer invocation, and leaves the
lifecycle unchanged. -/
theorem C6_denied_transition_atomic (lfc : sk_lifecycle) (s : Nat) (e : Int)
    (h : valid_transition (sk_lifecycle_get lfc) s = false) :
    sk_lifecycle_set_at_epoch lfc s e = .error .SK_LIFECYCLE_EINVAL ∧
    invocations (sk_lifecycle_set_at_epoch lfc s e) = [] ∧
    step lfc (.set_at_epoch s e) = lfc := by
  have herr := set_at_epoch_error lfc s e (Or.inr h)
  exact ⟨herr, by simp [invocations, herr], by simp [step, herr]⟩

/-- Concrete instantiation of `C6_denied_transition_atomic`: NEW to
RUNNING is not a legal edge. -/
theorem C6_denied_transition_atomic_witness :
    sk_lifecycle_set_at_epoch ⟨0, [10, 0, 0, 0, 0, 0], []⟩ 2 7 =
      .error .SK_LIFECYCLE_EINVAL ∧
    invocations (sk_lifecycle_set_at_epoch ⟨0, [10, 0, 0, 0, 0, 0], []⟩ 2 7) = [] ∧
    step ⟨0, [10, 0, 0, 0, 0, 0], []⟩ (.set_at_epoch 2 7) =
      ⟨0, [10, 0, 0, 0, 0, 0], []⟩ :=
  C6_denied_transition_atomic ⟨0, [10, 0, 0, 0, 0, 0], []⟩ 2 7 (by decide)

/-- C7 fails as stated: initialization only treats a clock reading of
`-1` as a time-source failure, so initializing at clock reading 0 (the
1970 epoch instant) succeeds and stores a zero slot for NEW, and
`get_epoch(NEW)` then returns zero, not a non-zero creation time. -/
theorem C7_counterexample_zero_time :
    sk_lifecycle_init 0 = .ok ⟨0, [0, 0, 0, 0, 0, 0], []⟩ ∧
    sk_lifecycle_get_epoch ⟨0, [0, 0, 0, 0, 0, 0], []⟩ SK_STATE_NEW = 0 :=
  ⟨rfl, rfl⟩

/-- C7 amended: a successful initialization yields state NEW with
`epochs[NEW]` equal to the creation time — non-zero whenever the clock
reading is non-zero, the clock reading 0 being the one successful case
that stores a zero slot — and every other epoch slot zero;
initialization fails only when the time source fails (a clock reading
of `-1`), reporting `SK_LIFECYCLE_EFAULT`. -/
theorem C7_init_fresh_state (now : Int) :
    (∀ lfc, sk_lifecycle_init now = .ok lfc →
      sk_lifecycle_get lfc = SK_STATE_NEW ∧
      sk_lifecycle_get_epoch lfc SK_STATE_NEW = now ∧
      (now ≠ 0 → sk_lifecycle_get_epoch lfc SK_STATE_NEW ≠ 0) ∧
      (∀ s, s ≠ SK_STATE_NEW → sk_lifecycle_get_epoch lfc s = 0)) ∧
    (∀ c, sk_lifecycle_init now = .error c → c = .SK_LIFECYCLE_EFAULT ∧ now = -1) ∧
    (now ≠ -1 → (sk_lifecycle_init now).isOk = true) := by
  refine ⟨?_, ?_, ?_⟩
  · intro lfc h
    obtain ⟨hne, hstate, hepochs, -⟩ := init_ok now lfc h
    have hget : sk_lifecycle_get lfc = SK_STATE_NEW := hstate
    have hepoch0 : sk_lifecycle_get_epoch lfc SK_STATE_NEW = now := by
      rw [sk_lifecycle_get_epoch, hget, if_neg (by decide), hepochs]
      exact getD_set_self _ _ _ (by decide)
    refine ⟨hget, hepoch0, fun h0 => by rw [hepoch0]; exact h0, ?_⟩
    intro s hs
    have hs0 : s ≠ 0 := hs
    rw [sk_lifecycle_get_epoch, hget, if_pos (by simp [SK_STATE_NEW]; omega)]
  · intro c h
    unfold sk_lifecycle_init at h
    split_ifs at h with h1
    cases h
    exact ⟨rfl, h1⟩
  · intro h
    simp [sk_lifecycle_init, h, Except.isOk, Except.toBool]

/-- Concrete instantiation of `C7_init_fresh_state` at creation time 50. -/
theorem C7_init_fresh_state_witness :
    sk_lifecycle_get ⟨0, [50, 0, 0, 0, 0, 0], []⟩ = SK_STATE_NEW ∧
    sk_lifecycle_get_epoch ⟨0, [50, 0, 0, 0, 0, 0], []⟩ SK_STATE_NEW = 50 ∧
    sk_lifecycle_get_epoch ⟨0, [50, 0, 0, 0, 0, 0], []⟩ 2 = 0 :=
  ⟨((C7_init_fresh_state 50).1 ⟨0, [50, 0, 0, 0, 0, 0], []⟩ rfl).1,
   ((C7_init_fresh_state 50).1 ⟨0, [50, 0, 0, 0, 0, 0], []⟩ rfl).2.1,
   ((C7_init_fresh_state 50).1 ⟨0, [50, 0, 0, 0, 0, 0], []⟩ rfl).2.2.2 2 (by decide)⟩

/-- C8: from every state other than FAILED a transition to FAILED with a
positive epoch succeeds and lands in FAILED; once in FAILED every
transition attempt fails and no operation ever moves the state away. -/
theorem C8_failed_terminal (lfc : sk_lifecycle) :
    (∀ e : Int, 0 < e → sk_lifecycle_get lfc ≠ SK_STATE_FAILED →
      ∃ lfc2 tr, sk_lifecycle_set_at_epoch lfc SK_STATE_FAILED e = .ok (lfc2, tr) ∧
        sk_lifecycle_get lfc2 = SK_STATE_FAILED) ∧
    (sk_lifecycle_get lfc = SK_STATE_FAILED →
      (∀ (s : Nat) (e : Int),
        sk_lifecycle_set_at_epoch lfc s e = .error .SK_LIFECYCLE_EINVAL) ∧
      (∀ op : Op, sk_lifecycle_get (step lfc op) = SK_STATE_FAILED)) := by
  constructor
  · intro e he hne
    have hval : valid_transition lfc.state SK_STATE_FAILED = true := by
      rw [valid_transition_iff]
      right; right; right; right
      exact ⟨rfl, hne⟩
    exact ⟨_, _, set_at_epoch_accepts lfc SK_STATE_FAILED e he hval, rfl⟩
  · intro hf
    have hst : lfc.state = SK_STATE_FAILED := hf
    have hvf : ∀ s, valid_transition (sk_lifecycle_get lfc) s = false := by
      intro s
      show valid_transition lfc.state s = false
      rw [hst]
      exact valid_transition_from_failed s
    refine ⟨fun s e => set_at_epoch_error lfc s e (Or.inr (hvf s)), ?_⟩
    intro op
    cases op with
    | set_at_epoch s e =>
      have herr := set_at_epoch_error lfc s e (Or.inr (hvf s))
      simp only [step, herr]
      exact hf
    | set s now =>
      by_cases hn : now = -1
      · simp only [step, sk_lifecycle_set, if_pos hn]
        exact hf
      · have herr := set_at_epoch_error lfc s now (Or.inr (hvf s))
        simp only [step, sk_lifecycle_set, if_neg hn, herr]
        exact hf
    | register_listener l => exact hf
    | unregister_listener l => exact hf

/-- Concrete instantiation of `C8_failed_terminal`: NEW can fail out at
epoch 3, and from FAILED the transition to STARTING is rejected. -/
theorem C8_failed_terminal_witness :
    (∃ lfc2 tr,
      sk_lifecycle_set_at_epoch ⟨0, [10, 0, 0, 0, 0, 0], []⟩ SK_STATE_FAILED 3 =
        .ok (lfc2, tr) ∧
      sk_lifecycle_get lfc2 = SK_STATE_FAILED) ∧
    sk_lifecycle_set_at_epoch ⟨5, [10, 0, 0, 0, 0, 3], []⟩ 1 7 =
      .error .SK_LIFECYCLE_EINVAL :=
  ⟨(C8_failed_terminal ⟨0, [10, 0, 0, 0, 0, 0], []⟩).1 3 (by decide) (by decide),
   ((C8_failed_terminal ⟨5, [10, 0, 0, 0, 0, 3], []⟩).2 rfl).1 1 7⟩

/-- C10: acceptance of a transition depends only on strict positivity of
the epoch and on the policy, never on previously recorded epochs; hence
the accepted sequence STARTING at epoch 100 followed by RUNNING at epoch
5 records a strictly smaller epoch for the later-entered state. -/
theorem C10_epochs_not_monotone :
    (∀ (lfc : sk_lifecycle) (s : Nat) (e : Int),
      0 < e → valid_transition (sk_lifecycle_get lfc) s = true →
      (sk_lifecycle_set_at_epoch lfc s e).isOk = true) ∧
    (∃ lfc0 lfc1 lfc2 t1 t2,
      sk_lifecycle_init 1 = .ok lfc0 ∧
      sk_lifecycle_set_at_epoch lfc0 SK_STATE_STARTING 100 = .ok (lfc1, t1) ∧
      sk_lifecycle_set_at_epoch lfc1 SK_STATE_RUNNING 5 = .ok (lfc2, t2) ∧
      sk_lifecycle_get_epoch lfc2 SK_STATE_STARTING = 100 ∧
      sk_lifecycle_get_epoch lfc2 SK_STATE_RUNNING = 5 ∧
      sk_lifecycle_get_epoch lfc2 SK_STATE_RUNNING <
        sk_lifecycle_get_epoch lfc2 SK_STATE_STARTING) := by
  constructor
  · intro lfc s e he hv
    rw [set_at_epoch_accepts lfc s e he hv]
    rfl
  · exact ⟨⟨0, [1, 0, 0, 0, 0, 0], []⟩, ⟨1, [1, 100, 0, 0, 0, 0], []⟩,
      ⟨2, [1, 100, 5, 0, 0, 0], []⟩, [], [],
      rfl, rfl, rfl, rfl, rfl, by decide⟩

/-- Concrete instantiation of `C10_epochs_not_monotone`: with STARTING
already recorded at epoch 100, RUNNING is still accepted at epoch 5. -/
theorem C10_epochs_not_monotone_witness :
    (sk_lifecycle_set_at_epoch ⟨1, [1, 100, 0, 0, 0, 0], []⟩ 2 5).isOk = true :=
  C10_epochs_not_monotone.1 ⟨1, [1, 100, 0, 0, 0, 0], []⟩ 2 5 (by decide) (by decide)

/-- C4 fails as stated: with listener "a" registered before listener "b",
an accepted transition invokes the callback of "b" first, because
registration inserts at the head of the list and dispatch walks the list
front to back; the invocation sequence is not registration order. -/
theorem C4_counterexample_reverse_order :
    invocations (sk_lifecycle_set_at_epoch
      (sk_lifecycle_register_listener
        (sk_lifecycle_register_listener ⟨0, [50, 0, 0, 0, 0, 0], []⟩ ⟨"a", 1, 11⟩)
        ⟨"b", 2, 22⟩)
      SK_STATE_STARTING 7) =
      [{ callback := 2, ctx := 22, state := SK_STATE_STARTING, epoch := 7 },
       { callback := 1, ctx := 11, state := SK_STATE_STARTING, epoch := 7 }] ∧
    ([{ callback := 2, ctx := 22, state := SK_STATE_STARTING, epoch := 7 },
      { callback := 1, ctx := 11, state := SK_STATE_STARTING, epoch := 7 }] :
        List Invocation) ≠
      [{ callback := 1, ctx := 11, state := SK_STATE_STARTING, epoch := 7 },
       { callback := 2, ctx := 22, state := SK_STATE_STARTING, epoch := 7 }] :=
  ⟨rfl, by decide⟩

/-- Listener registration builds the reversed list in front of the
previous listeners. -/
theorem registerAll_listeners (ls : List sk_lifecycle_listener) :
    ∀ lfc : sk_lifecycle,
      (registerAll lfc ls).listeners = ls.reverse ++ lfc.listeners := by
  induction ls with
  | nil =>
    intro lfc
    simp [registerAll]
  | cons l rest ih =>
    intro lfc
    show (registerAll (sk_lifecycle_register_listener lfc l) rest).listeners = _
    rw [ih]
    simp [sk_lifecycle_register_listener]

/-- C4 amended: every accepted transition synchronously invokes every
currently-registered observer exactly once, each with the pair
(new_state, epoch) and its own opaque context, before the transition
returns success, in reverse registration order (most recently registered
observer first). -/
theorem C4_observers_fire_once_reverse_order (lfc : sk_lifecycle)
    (hbase : lfc.listeners = []) (ls : List sk_lifecycle_listener)
    (s : Nat) (e : Int) (lfc2 : sk_lifecycle) (tr : List Invocation)
    (h : sk_lifecycle_set_at_epoch (registerAll lfc ls) s e = .ok (lfc2, tr)) :
    tr = ls.reverse.map (fun l =>
      { callback := l.callback, ctx := l.ctx, state := s, epoch := e }) := by
  have hinv := set_at_epoch_ok _ s e lfc2 tr h
  rw [hinv.2.2.2.2.2, registerAll_listeners ls lfc, hbase]
  simp

/-- Concrete instantiation of `C4_observers_fire_once_reverse_order`
with two listeners. -/
theorem C4_observers_fire_once_reverse_order_witness :
    [({ callback := 2, ctx := 22, state := 1, epoch := 7 } : Invocation),
     { callback := 1, ctx := 11, state := 1, epoch := 7 }] =
    List.map (fun l =>
      { callback := l.callback, ctx := l.ctx, state := 1, epoch := (7 : Int) })
      ([⟨"a", 1, 11⟩, (⟨"b", 2, 22⟩ : sk_lifecycle_listener)].reverse) :=
  C4_observers_fire_once_reverse_order ⟨0, [50, 0, 0, 0, 0, 0], []⟩ rfl
    [⟨"a", 1, 11⟩, ⟨"b", 2, 22⟩] 1 7
    ⟨1, [50, 7, 0, 0, 0, 0], [⟨"b", 2, 22⟩, ⟨"a", 1, 11⟩]⟩
    [{ callback := 2, ctx := 22, state := 1, epoch := 7 },
     { callback := 1, ctx := 11, state := 1, epoch := 7 }] rfl

/-- Every slot of an all-zero table reads zero. -/
theorem getD_replicate_zero (n i : Nat) :
    (List.replicate n (0 : Int)).getD i 0 = 0 := by
  simp [List.getD, List.getElem?_replicate]
  split <;> rfl

/-- Invariant tying the epoch table to the set of visited states: `V`
lists the visited states without duplicates, the current state is the
largest visited state and a real enumerator, the table has one slot per
state, and a slot is non-zero exactly for visited states. -/
def EpochInv (lfc : sk_lifecycle) (V : List Nat) : Prop :=
  V.Nodup ∧
  lfc.state ∈ V ∧
  (∀ s ∈ V, s ≤ lfc.state) ∧
  lfc.state < SK_STATE_COUNT ∧
  lfc.epochs.length = SK_STATE_COUNT ∧
  (∀ s, s < SK_STATE_COUNT → (lfc.epochs.getD s 0 ≠ 0 ↔ s ∈ V))

/-- An accepted transition extends the visited set by exactly its target
state and preserves the epoch-table invariant. -/
theorem epochInv_accept (lfc : sk_lifecycle) (V : List Nat) (s : Nat) (e : Int)
    (lfc2 : sk_lifecycle) (tr : List Invocation) (h : EpochInv lfc V)
    (hok : sk_lifecycle_set_at_epoch lfc s e = .ok (lfc2, tr)) :
    EpochInv lfc2 (V ++ [s]) := by
  obtain ⟨hnd, hmem, hub, hlt, hlen, hiff⟩ := h
  obtain ⟨he, hv, hst, hep, hls, htr⟩ := set_at_epoch_ok lfc s e lfc2 tr hok
  have hslt : lfc.state < s := valid_transition_lt _ _ hlt hv
  have hsC : s < SK_STATE_COUNT := (valid_transition_target _ _ hv).2
  have hnotin : s ∉ V := fun hin => absurd (hub s hin) (by omega)
  refine ⟨?_, ?_, ?_, ?_, ?_, ?_⟩
  · simp [List.nodup_append, hnd, hnotin]
  · rw [hst]
    simp
  · intro t ht
    rw [hst]
    rcases List.mem_append.mp ht with h1 | h1
    · have := hub t h1
      omega
    · simp at h1
      omega
  · rw [hst]
    exact hsC
  · rw [hep, List.length_set]
    exact hlen
  · intro t htC
    rw [hep]
    by_cases hts : t = s
    · subst hts
      rw [getD_set_self _ _ _ (by omega)]
      constructor
      · intro _
        simp
      · intro _
        omega
    · rw [getD_set_ne _ _ _ _ (fun hh => hts hh.symm)]
      rw [hiff t htC]
      simp [hts]

/-- One step preserves the epoch-table invariant, the visited set growing
by exactly the state the step entered. -/
theorem epochInv_step (lfc : sk_lifecycle) (V : List Nat) (op : Op)
    (h : EpochInv lfc V) :
    EpochInv (step lfc op) (V ++ (entered lfc op).toList) := by
  cases op with
  | set_at_epoch s e =>
    cases hres : sk_lifecycle_set_at_epoch lfc s e with
    | ok p =>
      obtain ⟨lfc2, tr⟩ := p
      have h2 := epochInv_accept lfc V s e lfc2 tr h hres
      have hstep : step lfc (.set_at_epoch s e) = lfc2 := by
        simp [step, hres]
      have hent : entered lfc (.set_at_epoch s e) = some s := by
        simp [entered, hres, Except.isOk, Except.toBool]
      rw [hstep, hent]
      simpa using h2
    | error c =>
      have hstep : step lfc (.set_at_epoch s e) = lfc := by
        simp [step, hres]
      have hent : entered lfc (.set_at_epoch s e) = none := by
        simp [entered, hres, Except.isOk, Except.toBool]
      rw [hstep, hent]
      simpa using h
  | set s now =>
    cases hres : sk_lifecycle_set lfc s now with
    | ok p =>
      obtain ⟨lfc2, tr⟩ := p
      have h2 := epochInv_accept lfc V s now lfc2 tr h (set_ok lfc s now lfc2 tr hres)
      have hstep : step lfc (.set s now) = lfc2 := by
        simp [step, hres]
      have hent : entered lfc (.set s now) = some s := by
        simp [entered, hres, Except.isOk, Except.toBool]
      rw [hstep, hent]
      simpa using h2
    | error c =>
      have hstep : step lfc (.set s now) = lfc := by
        simp [step, hres]
      have hent : entered lfc (.set s now) = none := by
        simp [entered, hres, Except.isOk, Except.toBool]
      rw [hstep, hent]
      simpa using h
  | register_listener l =>
    have hent : entered lfc (.register_listener l) = none := rfl
    rw [hent]
    simp only [Option.toList_none, List.append_nil]
    exact h
  | unregister_listener l =>
    have hent : entered lfc (.unregister_listener l) = none := rfl
    rw [hent]
    simp only [Option.toList_none, List.append_nil]
    exact h

/-- Running a sequence of operations preserves the epoch-table invariant,
the visited set growing by exactly the visited states. -/
theorem epochInv_run (ops : List Op) :
    ∀ (lfc : sk_lifecycle) (V : List Nat), EpochInv lfc V →
      EpochInv (run lfc ops) (V ++ visited lfc ops) := by
  induction ops with
  | nil =>
    intro lfc V h
    simpa [run, visited] using h
  | cons op rest ih =>
    intro lfc V h
    have h3 := ih (step lfc op) (V ++ (entered lfc op).toList) (epochInv_step lfc V op h)
    simpa [run, visited, List.append_assoc] using h3

/-- A successful initialization at a non-zero time establishes the
epoch-table invariant with NEW as the only visited state. -/
theorem epochInv_init (now : Int) (hnz : now ≠ 0) (lfc0 : sk_lifecycle)
    (h : sk_lifecycle_init now = .ok lfc0) :
    EpochInv lfc0 [SK_STATE_NEW] := by
  obtain ⟨hne, hstate, hepochs, -⟩ := init_ok now lfc0 h
  refine ⟨by simp, by rw [hstate]; simp, ?_, ?_, ?_, ?_⟩
  · intro s hs
    simp at hs
    rw [hstate]
    omega
  · rw [hstate]
    decide
  · rw [hepochs, List.length_set]
    decide
  · intro s hsC
    rw [hepochs]
    by_cases h0 : s = SK_STATE_NEW
    · subst h0
      rw [getD_set_self _ _ _ (by decide)]
      simp [hnz]
    · rw [getD_set_ne _ _ _ _ (fun hh => h0 hh.symm)]
      rw [getD_replicate_zero]
      simp [h0]

/-- C9 fails as stated: the reachable lifecycle obtained by a successful
initialization at clock reading 0 has been in state NEW, yet
`epochs[NEW]` holds the zero value, so the slot being non-zero is not
equivalent to the state having been visited. -/
theorem C9_counterexample_zero_time :
    sk_lifecycle_init 0 = .ok ⟨0, [0, 0, 0, 0, 0, 0], []⟩ ∧
    SK_STATE_NEW ∈ SK_STATE_NEW :: visited ⟨0, [0, 0, 0, 0, 0, 0], []⟩ [] ∧
    (run ⟨0, [0, 0, 0, 0, 0, 0], []⟩ []).epochs.getD SK_STATE_NEW 0 = 0 :=
  ⟨rfl, by decide, rfl⟩

/-- C9 amended: after a successful initialization at a non-zero creation
time (the clock reading 0 is the one successful initialization that
stores a zero slot for the visited state NEW) and any sequence of
operations, an epoch slot of a real state is non-zero exactly when the
machine has at some point been in that state; the visited states carry
no duplicate, so each slot is written exactly once, precisely when its
state is entered (NEW at initialization), and unset slots hold zero. -/
theorem C9_epoch_slots_track_visited (now : Int) (hnz : now ≠ 0)
    (lfc0 : sk_lifecycle) (hinit : sk_lifecycle_init now = .ok lfc0)
    (ops : List Op) :
    (SK_STATE_NEW :: visited lfc0 ops).Nodup ∧
    (∀ s, s < SK_STATE_COUNT →
      ((run lfc0 ops).epochs.getD s 0 ≠ 0 ↔
        s ∈ SK_STATE_NEW :: visited lfc0 ops)) := by
  obtain ⟨hnd, -, -, -, -, hiff⟩ :=
    epochInv_run ops lfc0 [SK_STATE_NEW] (epochInv_init now hnz lfc0 hinit)
  constructor
  · simpa using hnd
  · intro s hsC
    have h := hiff s hsC
    simpa using h

/-- Concrete instantiation of `C9_epoch_slots_track_visited`: after
initializing at time 50 and entering STARTING at epoch 7, the STARTING
slot is non-zero and STARTING is recorded as visited. -/
theorem C9_epoch_slots_track_visited_witness :
    (run ⟨0, [50, 0, 0, 0, 0, 0], []⟩ [Op.set_at_epoch 1 7]).epochs.getD 1 0 ≠ 0 ↔
      1 ∈ SK_STATE_NEW :: visited ⟨0, [50, 0, 0, 0, 0, 0], []⟩ [Op.set_at_epoch 1 7] :=
  (C9_epoch_slots_track_visited 50 (by decide) ⟨0, [50, 0, 0, 0, 0, 0], []⟩ rfl
    [Op.set_at_epoch 1 7]).2 1 (by decide)

end Survivalkit
